import Mathlib

/-!
Verification of the SHTP protocol client in `src/lib/bno085.py` (class
`BNO085`, class `Packet`, and the module-level helpers).  Each definition
below is a shallow embedding of the correspondingly named Python function;
bytes are `Nat`s below 256, buffers are `List Nat`, machine integers are
`Nat`/`Int` with explicit wrapping, Python exceptions are explicit error
values, and the scaled floating-point sensor values (int16 values times an
exact power of two) are represented exactly as rationals.
-/

namespace BNO085

/-- The `PacketHeader` namedtuple: `(channel_number, sequence_number,
data_length, packet_byte_count)`. -/
structure PacketHeader where
  channel_number : Nat
  sequence_number : Nat
  data_length : Nat
  packet_byte_count : Nat
deriving Repr, DecidableEq

/-- `Packet.header_from_buffer`, over the first four bytes of the buffer.
`packet_byte_count` is the little-endian 16-bit value of bytes 0-1 with the
high continuation bit cleared (`packet_byte_count &= ~0x8000` on a `<H`
value is masking with `0x7FFF`); `data_length = max(0, packet_byte_count - 4)`
is `Nat` truncated subtraction here. -/
def header_from_buffer (b0 b1 b2 b3 : Nat) : PacketHeader :=
  { channel_number := b2
    sequence_number := b3
    data_length := ((b0 + 256 * b1) &&& 0x7FFF) - 4
    packet_byte_count := (b0 + 256 * b1) &&& 0x7FFF }

/-- `Packet.is_error`. -/
def is_error (header : PacketHeader) : Bool :=
  if header.channel_number > 5 then true
  else if header.packet_byte_count = 0xFFFF ∧ header.sequence_number = 0xFF then true
  else false

/-- The send buffer `BNO085._send_packet` builds before writing it to the
bus: a 4-byte header (little-endian `byte_count = len(data) + 4`, channel
byte, sequence byte) followed by the payload.  The Python code fails (from
`bytearray` range checks and the 512-byte `_data_buffer`) unless the channel
and sequence fit in a byte and the payload fits the buffer; those failure
cases are `none`. -/
def encode_send_buffer (channel seq : Nat) (data : List Nat) : Option (List Nat) :=
  if channel < 256 ∧ seq < 256 ∧ data.length + 4 ≤ 512 then
    some ([(data.length + 4) % 256, ((data.length + 4) / 256) % 256, channel, seq] ++ data)
  else
    none

/-- `_AVAIL_SENSOR_REPORTS`: report id to (scale factor, field count, report
byte length).  The power-of-two scale factors are exact rationals. -/
def avail_sensor_reports (report_id : Nat) : Option (ℚ × Nat × Nat) :=
  match report_id with
  | 0x01 => some (1 / 2 ^ 8, 3, 10)    -- accelerometer
  | 0x06 => some (1 / 2 ^ 8, 3, 10)    -- gravity
  | 0x02 => some (1 / 2 ^ 9, 3, 10)    -- gyroscope
  | 0x03 => some (1 / 2 ^ 4, 3, 10)    -- magnetometer
  | 0x04 => some (1 / 2 ^ 8, 3, 10)    -- linear acceleration
  | 0x05 => some (1 / 2 ^ 14, 4, 14)   -- rotation vector
  | 0x09 => some (1 / 2 ^ 12, 4, 14)   -- geomagnetic rotation vector
  | 0x08 => some (1 / 2 ^ 14, 4, 12)   -- game rotation vector
  | 0x11 => some (1, 1, 12)            -- step counter
  | 0x19 => some (1, 1, 6)             -- shake detector
  | 0x13 => some (1, 1, 6)             -- stability classifier
  | 0x1E => some (1, 1, 16)            -- activity classifier
  | 0x14 => some (1, 3, 16)            -- raw accelerometer
  | 0x15 => some (1, 3, 16)            -- raw gyroscope
  | 0x16 => some (1, 3, 16)            -- raw magnetometer
  | _ => none

/-- `_REPORT_LENGTHS`: control report id to byte length. -/
def control_report_lengths (report_id : Nat) : Option Nat :=
  match report_id with
  | 0xF8 => some 16   -- product id response
  | 0xFC => some 17   -- get feature response
  | 0xF1 => some 16   -- command response
  | 0xFB => some 5    -- base timestamp
  | 0xFA => some 5    -- timestamp rebase
  | _ => none

/-- `_report_length`; `none` is the Python `KeyError` on an unknown id. -/
def report_length (report_id : Nat) : Option Nat :=
  if report_id < 0xF0 then (avail_sensor_reports report_id).map (fun t => t.2.2)
  else control_report_lengths report_id

/-- Errors of `_separate_batch`: `keyError` is the table `KeyError` of
`_report_length` on an unknown id; `unprocessable` (with the remaining byte
count) is the `RuntimeError("Unprocessable Batch bytes", ...)`;
`indexError` is reading past the end of `packet.data`. -/
inductive BatchError where
  | keyError (report_id : Nat)
  | unprocessable (unprocessed_byte_count : Nat)
  | indexError
deriving Repr, DecidableEq

/-- The loop of `_separate_batch`: scan `data` from byte `next`, append
`(report_id, slice)` pairs to `slices`, and return the final slice list
together with the error that aborted the scan, if any.  The Python function
mutates the passed list and raises; the appended slices survive the raise,
so both are returned.  Each emitted slice starts with its report id byte
(Python appends `[report_slice[0], report_slice]` and
`report_slice[0] = data[next_byte_index] = report_id`). -/
def separate_batch_from (data : List Nat) (data_length : Nat) (next : Nat)
    (slices : List (Nat × List Nat)) : List (Nat × List Nat) × Option BatchError :=
  if h : next < data_length then
    match hb : data.get? next with
    | none => (slices, some .indexError)
    | some report_id =>
      match hl : report_length report_id with
      | none => (slices, some (.keyError report_id))
      | some required_bytes =>
        if data_length - next < required_bytes then
          (slices, some (.unprocessable (data_length - next)))
        else
          separate_batch_from data data_length (next + required_bytes)
            (slices ++ [(report_id, (data.drop next).take required_bytes)])
  else
    (slices, none)
termination_by data_length - next
decreasing_by
  have h1 : 1 ≤ required_bytes := by
    unfold report_length at hl
    split at hl
    · unfold avail_sensor_reports at hl
      split at hl <;> simp_all <;> omega
    · unfold control_report_lengths at hl
      split at hl <;> simp_all <;> omega
  omega

/-- `_separate_batch` on a packet: scan the whole payload. -/
def separate_batch (header : PacketHeader) (data : List Nat)
    (slices : List (Nat × List Nat)) : List (Nat × List Nat) × Option BatchError :=
  separate_batch_from data header.data_length 0 slices

/-- The order in which `_handle_packet`'s
`while len(...) > 0: _process_report(*slices.pop())` loop visits a slice
list: repeatedly take the last element. -/
def pop_order {α : Type} : List α → List α
  | [] => []
  | a :: as => (a :: as).getLast (by simp) :: pop_order (a :: as).dropLast
termination_by l => l.length
decreasing_by simp [List.length_dropLast_cons]

/-- A `Packet`: header plus the `data_length` bytes after the 4-byte header. -/
structure Packet where
  header : PacketHeader
  data : List Nat
deriving Repr, DecidableEq

/-- `Packet.__init__`: parse the header from the first four bytes and slice
out `data_length` bytes after the header (Python slicing silently yields
fewer bytes if the buffer is short). -/
def packet_of_bytes (bytes : List Nat) : Packet :=
  let h := header_from_buffer (bytes.getD 0 0) (bytes.getD 1 0) (bytes.getD 2 0) (bytes.getD 3 0)
  ⟨h, (bytes.drop 4).take h.data_length⟩

/-- One send on a channel (`BNO085._send_packet`): look up the channel's
outgoing counter, build the send buffer with that counter as the header
sequence byte, and bump the counter modulo 256 afterwards.  Returns the
wire bytes and the updated counter list; `none` models the Python
exceptions (bad channel index, byte-range violations). -/
def send_packet (seqs : List Nat) (channel : Nat) (data : List Nat) :
    Option (List Nat × List Nat) :=
  match seqs.get? channel with
  | none => none
  | some s =>
    match encode_send_buffer channel s data with
    | none => none
    | some buf => some (buf, seqs.set channel ((s + 1) % 256))

/-- `n` consecutive sends on the same channel with no interleaved
receptions; returns the final counter list. -/
def send_loop (channel : Nat) (data : List Nat) : Nat → List Nat → Option (List Nat)
  | 0, seqs => some seqs
  | n + 1, seqs =>
    match send_packet seqs channel data with
    | none => none
    | some (_, seqs2) => send_loop channel data n seqs2

/-- The activity-classifier record: the `most_likely` label and the
per-activity confidences (`10 * page_number + raw_confidence`). -/
structure ActivityClassification where
  most_likely : String
  confidence : List (String × Int)
deriving Repr, DecidableEq

/-- A value in the `_readings` store.  Scaled fixed-point sensor tuples are
exact rationals (the Python floats are int16 values times exact powers of
two, so this is lossless); raw-report tuples are also `vec`s with scale 1. -/
inductive Reading where
  | vec (vals : List ℚ)
  | stepCount (n : Nat)
  | shakeFlag (b : Bool)
  | stability (s : String)
  | activity (a : ActivityClassification)
deriving Repr, DecidableEq

/-- Python truthiness of a stored reading, as used by
`if not self._readings.get(...)` and `if shake_detected:`: a tuple is truthy
iff nonempty, an int iff nonzero, a bool is itself, a string iff nonempty,
a dict (always built nonempty here) is truthy. -/
def truthy_reading : Reading → Bool
  | .vec vals => !vals.isEmpty
  | .stepCount n => n != 0
  | .shakeFlag b => b
  | .stability s => s.length != 0
  | .activity _ => true

/-- Truthiness of a `dict.get` result (`None` is falsy). -/
def truthy_opt : Option Reading → Bool
  | none => false
  | some r => truthy_reading r

/-- `dict` lookup on the readings store (modelled as an association list). -/
def alist_get : List (Nat × Reading) → Nat → Option Reading
  | [], _ => none
  | (k, v) :: rest, key => if k = key then some v else alist_get rest key

/-- `dict` assignment on the readings store. -/
def alist_set : List (Nat × Reading) → Nat → Reading → List (Nat × Reading)
  | [], key, v => [(key, v)]
  | (k, w) :: rest, key, v =>
    if k = key then (key, v) :: rest else (k, w) :: alist_set rest key v

/-- The mutable state of a `BNO085` instance that the protocol logic
touches (the bus object and debug flag carry no protocol state). -/
structure DeviceState where
  sequence_number : List Nat
  two_ended_sequence_numbers : List (Nat × Nat)
  dcd_saved_at : Int
  me_calibration_started_at : Int
  calibration_complete : Bool
  magnetometer_accuracy : Nat
  id_read : Bool
  readings : List (Nat × Reading)
  packet_slices : List (Nat × List Nat)
deriving Repr, DecidableEq

/-- The state `BNO085.__init__` sets up (before calling the init sequence). -/
def init_state : DeviceState :=
  { sequence_number := [0, 0, 0, 0, 0, 0]
    two_ended_sequence_numbers := []
    dcd_saved_at := -1
    me_calibration_started_at := -1
    calibration_complete := false
    magnetometer_accuracy := 0
    id_read := false
    readings := []
    packet_slices := [] }

/-- Python exceptions raised while parsing/dispatching a report. -/
inductive ProcError where
  | indexError
  | attributeError
  | keyError (k : Nat)
  | saveFailed
deriving Repr, DecidableEq

/-- Read one byte of a report slice; `IndexError`/`struct.error` if short. -/
def byte_at (l : List Nat) (i : Nat) : Except ProcError Nat :=
  match l.get? i with
  | some b => .ok b
  | none => .error .indexError

/-- `unpack_from("<H", l, i)`. -/
def u16_at (l : List Nat) (i : Nat) : Except ProcError Nat := do
  let a ← byte_at l i
  let b ← byte_at l (i + 1)
  pure (a + 256 * b)

/-- `unpack_from("<I", l, i)`. -/
def u32_at (l : List Nat) (i : Nat) : Except ProcError Nat := do
  let a ← u16_at l i
  let b ← u16_at l (i + 2)
  pure (a + 65536 * b)

/-- `unpack_from("<h", l, i)`: little-endian signed 16-bit. -/
def s16_at (l : List Nat) (i : Nat) : Except ProcError Int := do
  let v ← u16_at l i
  pure (if v < 0x8000 then (v : Int) else (v : Int) - 0x10000)

/-- `_RAW_REPORTS` keys: raw reports, whose fields are unsigned. -/
def is_raw_report (report_id : Nat) : Bool :=
  report_id = 0x14 ∨ report_id = 0x15 ∨ report_id = 0x16

/-- `_parse_sensor_report_data`: scaled fields (exact rationals) plus the
2-bit accuracy field of the status byte. -/
def parse_sensor_report_data (report_bytes : List Nat) :
    Except ProcError (List ℚ × Nat) := do
  let report_id ← byte_at report_bytes 0
  match avail_sensor_reports report_id with
  | none => .error (.keyError report_id)
  | some (scalar, count, _len) => do
    let acc_byte ← byte_at report_bytes 2
    let raws ← (List.range count).mapM (fun i =>
      if is_raw_report report_id then
        (u16_at report_bytes (4 + 2 * i)).map (fun v => (v : Int))
      else
        s16_at report_bytes (4 + 2 * i))
    pure (raws.map (fun r => (r : ℚ) * scalar), acc_byte &&& 0b11)

/-- `_parse_step_couter_report`. -/
def parse_step_counter_report (report_bytes : List Nat) : Except ProcError Nat :=
  u16_at report_bytes 8

/-- `_parse_stability_classifier_report`; `IndexError` if the byte exceeds
the 5-entry label table. -/
def parse_stability_classifier_report (report_bytes : List Nat) :
    Except ProcError String := do
  let b ← byte_at report_bytes 4
  match ["Unknown", "On Table", "Stationary", "Stable", "In motion"].get? b with
  | some s => pure s
  | none => .error .indexError

/-- The 9 activity labels of `_parse_activity_classifier_report`. -/
def activity_labels : List String :=
  ["Unknown", "In-Vehicle", "On-Bicycle", "On-Foot", "Still", "Tilting",
   "Walking", "Running", "OnStairs"]

/-- `_parse_activity_classifier_report`. -/
def parse_activity_classifier_report (report_bytes : List Nat) :
    Except ProcError ActivityClassification := do
  let end_and_page ← byte_at report_bytes 4
  let page_number := end_and_page &&& 0x7F
  let most_likely_idx ← byte_at report_bytes 5
  let confidences ← (List.range 9).mapM (fun i => byte_at report_bytes (6 + i))
  match activity_labels.get? most_likely_idx with
  | none => .error .indexError
  | some most_likely =>
    pure { most_likely := most_likely
           confidence := activity_labels.zipWith
             (fun label c => (label, ((10 * page_number + c : Nat) : Int))) confidences }

/-- `_parse_shake_report`: 16-bit little-endian bitfield at offset 4,
masked with `0x111`. -/
def parse_shake_report (report_bytes : List Nat) : Except ProcError Bool := do
  let bitfield ← u16_at report_bytes 4
  pure (decide (bitfield &&& 0x111 > 0))

/-- `parse_sensor_id` (product-id response fields); `AttributeError` if the
report id byte is not `0xF8`. -/
def parse_sensor_id (buffer : List Nat) :
    Except ProcError (Nat × Nat × Nat × Nat × Nat) := do
  let b0 ← byte_at buffer 0
  if b0 ≠ 0xF8 then .error .attributeError
  else do
    let sw_major ← byte_at buffer 2
    let sw_minor ← byte_at buffer 3
    let sw_patch ← u16_at buffer 12
    let sw_part_number ← u32_at buffer 4
    let sw_build_number ← u32_at buffer 8
    pure (sw_part_number, sw_major, sw_minor, sw_patch, sw_build_number)

/-- `_parse_command_response`: the 5-byte report body and 11 response
value bytes. -/
def parse_command_response (report_bytes : List Nat) :
    Except ProcError (List Nat × List Nat) := do
  let body ← (List.range 5).mapM (fun i => byte_at report_bytes i)
  let vals ← (List.range 11).mapM (fun i => byte_at report_bytes (5 + i))
  pure (body, vals)

/-- `_parse_get_feature_response_report` as used by the dispatcher: only the
first two bytes (report id, feature report id) are consumed, but the
`<BBBHIII` unpack needs 17 bytes. -/
def parse_get_feature_response (report_bytes : List Nat) :
    Except ProcError (Nat × Nat) := do
  if report_bytes.length < 17 then .error .indexError
  else do
    let rid ← byte_at report_bytes 0
    let fid ← byte_at report_bytes 1
    pure (rid, fid)

/-- `_INITIAL_REPORTS.get(feature_id, (0.0, 0.0, 0.0))`. -/
def initial_report (feature_report_id : Nat) : Reading :=
  match feature_report_id with
  | 0x1E => .activity
      { most_likely := "Unknown"
        confidence := [("Tilting", -1), ("OnStairs", -1), ("On-Foot", -1),
          ("Other", -1), ("On-Bicycle", -1), ("Still", -1), ("Walking", -1),
          ("Unknown", -1), ("Running", -1), ("In-Vehicle", -1)] }
  | 0x13 => .stability "Unknown"
  | 0x05 => .vec [0, 0, 0, 0]
  | 0x08 => .vec [0, 0, 0, 0]
  | 0x09 => .vec [0, 0, 0, 0]
  | _ => .vec [0, 0, 0]

/-- A bus operation; the dispatcher functions below contain no `i2c` calls
in the source, so their embedded traces are literally empty, which the
frame theorem then records. -/
inductive BusOp where
  | write (address : Nat) (bytes : List Nat)
  | readInto (address : Nat) (count : Nat)
deriving Repr, DecidableEq

/-- `BNO085._handle_command_response`; `now` is `time.ticks_ms()`. -/
def handle_command_response (now : Int) (st : DeviceState) (report_bytes : List Nat) :
    Except ProcError DeviceState := do
  let parsed ← parse_command_response report_bytes
  match parsed with
  | ([_rid, _seq, command, _cseq, _rseq], command_status :: _rest) =>
    let st1 := if command = 0x7 ∧ command_status = 0 then
        { st with me_calibration_started_at := now } else st
    if command = 0x6 then
      if command_status = 0 then pure { st1 with dcd_saved_at := now }
      else .error .saveFailed
    else pure st1
  | _ => .error .indexError

/-- `BNO085._handle_control_report`: three sequential `if`s on the report
id (product-id response, feature response, command response). -/
def handle_control_report (now : Int) (st : DeviceState) (report_id : Nat)
    (report_bytes : List Nat) : Except ProcError DeviceState := do
  let st1 ← if report_id = 0xF8 then
      (parse_sensor_id report_bytes).map (fun _ => st)
    else pure st
  let st2 ← if report_id = 0xFC then do
      let fr ← parse_get_feature_response report_bytes
      pure { st1 with readings := alist_set st1.readings fr.2 (initial_report fr.2) }
    else pure st1
  if report_id = 0xF1 then handle_command_response now st2 report_bytes
  else pure st2

/-- `BNO085._process_report`: dispatch one report slice.  Returns the new
state and the (empty) trace of bus operations the dispatch performed. -/
def process_report (now : Int) (st : DeviceState) (report_id : Nat)
    (report_bytes : List Nat) : Except ProcError (DeviceState × List BusOp) := do
  if report_id ≥ 0xF0 then
    (handle_control_report now st report_id report_bytes).map (fun s => (s, []))
  else if report_id = 0x11 then do
    let n ← parse_step_counter_report report_bytes
    pure ({ st with readings := alist_set st.readings 0x11 (.stepCount n) }, [])
  else if report_id = 0x19 then do
    let shake_detected ← parse_shake_report report_bytes
    if !truthy_opt (alist_get st.readings 0x19) then
      pure ({ st with readings := alist_set st.readings 0x19 (.shakeFlag shake_detected) }, [])
    else
      pure (st, [])
  else if report_id = 0x13 then do
    let sc ← parse_stability_classifier_report report_bytes
    pure ({ st with readings := alist_set st.readings 0x13 (.stability sc) }, [])
  else if report_id = 0x1E then do
    let ac ← parse_activity_classifier_report report_bytes
    pure ({ st with readings := alist_set st.readings 0x1E (.activity ac) }, [])
  else do
    let parsed ← parse_sensor_report_data report_bytes
    let st1 := if report_id = 0x03 then
        { st with magnetometer_accuracy := parsed.2 } else st
    pure ({ st1 with readings := alist_set st1.readings report_id (.vec parsed.1) }, [])

/-- The body of the `shake` property after its packet pump: read the stored
shake flag, clear it if it read truthy, and return the value read.
`ReportNotEnabled` (`RuntimeError` from `KeyError`) if never stored. -/
def shake_read (st : DeviceState) : Except ProcError (Reading × DeviceState) :=
  match alist_get st.readings 0x19 with
  | none => .error (.keyError 0x19)
  | some v =>
    if truthy_reading v then
      .ok (v, { st with readings := alist_set st.readings 0x19 (.shakeFlag false) })
    else
      .ok (v, st)

/-- Errors escaping `_handle_packet`: a batch framing error from the
splitter or a dispatch error from a report decoder. -/
inductive HandleError where
  | batch (e : BatchError)
  | proc (e : ProcError)
deriving Repr, DecidableEq

/-- The `while len(self._packet_slices) > 0: _process_report(*pop())` loop
of `_handle_packet`: process the slices from the END of the list.  Also
returns the order in which the slices were dispatched. -/
def drain_slices (now : Int) (st : DeviceState) (slices : List (Nat × List Nat))
    (dispatched : List (Nat × List Nat)) :
    Except HandleError (DeviceState × List (Nat × List Nat)) :=
  match slices with
  | [] => .ok (st, dispatched)
  | a :: as =>
    let s := (a :: as).getLast (by simp)
    match process_report now st s.1 s.2 with
    | .error e => .error (.proc e)
    | .ok (st2, _trace) =>
      drain_slices now st2 (a :: as).dropLast (dispatched ++ [s])
termination_by slices.length
decreasing_by simp [List.length_dropLast_cons]

/-- `BNO085._handle_packet`: split the packet payload into report slices
(appending to the instance's slice list) and dispatch them by popping from
the end until the list is empty. -/
def handle_packet (now : Int) (st : DeviceState) (p : Packet) :
    Except HandleError DeviceState :=
  match separate_batch p.header p.data st.packet_slices with
  | (_, some e) => .error (.batch e)
  | (slices, none) =>
    match drain_slices now st slices [] with
    | .error e => .error e
    | .ok (st2, _) => .ok { st2 with packet_slices := [] }

/-- The header the device presents for a read transaction: the first four
bytes of the frame it has available (an absent frame reads as a zero
header, i.e. "no packet available"). -/
def frame_header (frame : List Nat) : PacketHeader :=
  header_from_buffer (frame.getD 0 0) (frame.getD 1 0) (frame.getD 2 0) (frame.getD 3 0)

/-- `BNO085._data_ready`: read a header (without consuming the frame) and
report whether a packet with data is available.  `env` is the queue of
frames the device has to offer. -/
def data_ready (env : List (List Nat)) : Bool :=
  let header := frame_header (env.headD [0, 0, 0, 0])
  if header.packet_byte_count = 0x7FFF then false
  else decide (header.data_length > 0)

/-- Result of `BNO085._read_packet`: a packet, the transient
`PacketError("No packet available")`, or the `IndexError` of
`self._sequence_number[channel]` when the header channel is out of range. -/
inductive ReadOutcome where
  | packet (p : Packet)
  | packetError
  | indexError
deriving Repr, DecidableEq

/-- `BNO085._read_packet` on one device frame: parse the header, store the
header's sequence number for the header's channel (BEFORE the zero-length
check), raise `PacketError` on a zero byte count, otherwise re-read the
whole frame as a packet and store the sequence number again
(`_update_sequence_number`). -/
def read_packet (st : DeviceState) (frame : List Nat) : ReadOutcome × DeviceState :=
  let header := frame_header frame
  if header.channel_number < st.sequence_number.length then
    let st1 := { st with sequence_number :=
      st.sequence_number.set header.channel_number header.sequence_number }
    if header.packet_byte_count = 0 then (.packetError, st1)
    else
      let p := packet_of_bytes frame
      let st2 := { st1 with sequence_number :=
        st1.sequence_number.set p.header.channel_number p.header.sequence_number }
      (.packet p, st2)
  else (.indexError, st)

/-- Python truthiness of `max_packets and processed_count > max_packets`. -/
def max_packets_reached (max_packets : Option Nat) (processed_count : Nat) : Bool :=
  match max_packets with
  | none => false
  | some m => if m = 0 then false else decide (processed_count > m)

/-- `BNO085._process_available_packets`: pump packets while `_data_ready`,
returning early once `processed_count > max_packets`.  `env` is the queue
of frames the device presents; the result is the final state and the
number of packets processed (dispatched). -/
def process_available_packets (now : Int) (max_packets : Option Nat) :
    DeviceState → List (List Nat) → Nat → Except HandleError (DeviceState × Nat)
  | st, [], processed_count => .ok (st, processed_count)
  | st, frame :: rest, processed_count =>
    if data_ready (frame :: rest) then
      if max_packets_reached max_packets processed_count then .ok (st, processed_count)
      else
        match read_packet st frame with
        | (.indexError, _) => .error (.proc .indexError)
        | (.packetError, st1) => process_available_packets now max_packets st1 rest processed_count
        | (.packet p, st1) =>
          match handle_packet now st1 p with
          | .error e => .error e
          | .ok st2 => process_available_packets now max_packets st2 rest (processed_count + 1)
    else .ok (st, processed_count)

/-- One attempt outcome of `_check_id` inside `initialize`'s retry loop:
`.ok true` means the product-id handshake succeeded, `.ok false` a falsy
return, `.error ()` an exception (e.g. the handshake timeout). -/
def CheckOutcome := Except Unit Bool

/-- The `for _ in range(3): hard_reset; soft_reset; try: if _check_id():
break; except: ...` / `else: raise` loop of `initialize`, abstracted over
the per-attempt handshake outcome.  Returns the number of
hard-reset/soft-reset/handshake attempts executed and whether the loop
ended in success (`false` means the for-else raised
`RuntimeError("Could not read ID")`). -/
def run_init (check : Nat → CheckOutcome) : Nat → Nat → Nat × Bool
  | attempts_done, 0 => (attempts_done, false)
  | attempts_done, remaining + 1 =>
    match check attempts_done with
    | .ok true => (attempts_done + 1, true)
    | .ok false => run_init check (attempts_done + 1) remaining
    | .error _ => run_init check (attempts_done + 1) remaining

/-- `BNO085.initialize`, with its bound of 3 attempts. -/
def run_init_attempts (check : Nat → CheckOutcome) : Nat × Bool :=
  run_init check 0 3

/-- A payload consisting of back-to-back reports whose table lengths
exactly consume it: each chunk starts with its report id and has exactly
the table length for that id. -/
inductive ExactBatch : List Nat → Prop where
  | nil : ExactBatch []
  | cons (report_id len : Nat) (chunk rest : List Nat) :
      report_length report_id = some len → chunk.length = len →
      chunk.head? = some report_id → ExactBatch rest → ExactBatch (chunk ++ rest)

/-- The offsets the splitter scan actually reaches on a payload: offset 0,
and after a successfully sliced report, the offset advanced by its length. -/
inductive ScanReaches (data : List Nat) (dl : Nat) : Nat → Prop where
  | zero : ScanReaches data dl 0
  | step (next id req : Nat) : ScanReaches data dl next → next < dl →
      data.get? next = some id → report_length id = some req → req ≤ dl - next →
      ScanReaches data dl (next + req)

/-- A frame the device can present forever: byte count 9, channel 3,
sequence 5, payload one 5-byte base-timestamp report (id 0xFB), which the
dispatcher ignores. -/
def good_frame : List Nat := [9, 0, 3, 5, 0xFB, 0, 0, 0, 0]

/-- The state reached after pumping `good_frame`s from the fresh state:
only the channel-3 mirror sequence number differs, and further
`good_frame`s leave it fixed. -/
def pumped_state : DeviceState :=
  { init_state with sequence_number := [0, 0, 0, 5, 0, 0] }

/-- Helper: masking with `0x7FFF` is the identity below `2 ^ 15`. -/
theorem land_mask_eq (x : Nat) (h : x < 32768) : x &&& 32767 = x := by
  have h15 : (32767 : Nat) = 2 ^ 15 - 1 := by norm_num
  rw [h15]
  exact Nat.and_pow_two_sub_one_of_lt_two_pow (by norm_num at h ⊢; omega)

/-- C1: for every 4-byte input, header decoding is total (it is a total
function of the four bytes), the byte count is the 16-bit little-endian
value with its high continuation bit (bit 15) masked off, `data_length`
equals `max 0 (byte_count - 4)`, and the concrete header bytes
`[0x14, 0x00, 0x02, 0x05]` decode to channel 2, sequence 5, data length 16,
byte count 20. -/
theorem header_decoding_total_and_clamped (b0 b1 b2 b3 : Nat) :
    (header_from_buffer b0 b1 b2 b3).channel_number = b2 ∧
    (header_from_buffer b0 b1 b2 b3).sequence_number = b3 ∧
    (header_from_buffer b0 b1 b2 b3).packet_byte_count = (b0 + 256 * b1) &&& 0x7FFF ∧
    (header_from_buffer b0 b1 b2 b3).packet_byte_count < 2 ^ 15 ∧
    ((header_from_buffer b0 b1 b2 b3).data_length : Int) =
      max 0 (((header_from_buffer b0 b1 b2 b3).packet_byte_count : Int) - 4) ∧
    header_from_buffer 0x14 0x00 0x02 0x05 = ⟨2, 5, 16, 20⟩ := by
  refine ⟨rfl, rfl, rfl, ?_, ?_, by decide⟩
  · have : (b0 + 256 * b1) &&& 0x7FFF ≤ 0x7FFF := Nat.and_le_right
    simpa [header_from_buffer] using Nat.lt_succ_of_le this
  · simp only [header_from_buffer]
    omega

/-- C2: decoding the header of a send buffer built for channel `c`,
sequence `s`, payload `p` yields back channel `c`, sequence `s`, data
length `len p`, byte count `len p + 4`, and the bytes after the header are
exactly the payload. -/
theorem send_buffer_round_trip (c s : Nat) (p buf : List Nat)
    (h : encode_send_buffer c s p = some buf) :
    header_from_buffer (buf.getD 0 0) (buf.getD 1 0) (buf.getD 2 0) (buf.getD 3 0) =
      ⟨c, s, p.length, p.length + 4⟩ ∧
    buf.drop 4 = p := by
  unfold encode_send_buffer at h
  split at h
  · rename_i hc
    obtain ⟨hc1, hc2, hc3⟩ := hc
    injection h with h
    subst h
    constructor
    · have hwl : p.length + 4 < 32768 := by omega
      have hdiv : (p.length + 4) / 256 < 256 := by omega
      have hrecomb : (p.length + 4) % 256 + 256 * ((p.length + 4) / 256 % 256)
          = p.length + 4 := by
        rw [Nat.mod_eq_of_lt hdiv]
        omega
      simp only [List.cons_append, List.getD_cons_zero, List.getD_cons_succ,
        header_from_buffer]
      rw [hrecomb, land_mask_eq _ hwl]
      simp
    · rfl
  · simp at h

theorem pop_order_concat {α : Type} (l : List α) (x : α) :
    pop_order (l ++ [x]) = x :: pop_order l := by
  cases l with
  | nil => simp [pop_order]
  | cons y ys =>
    rw [List.cons_append, pop_order]
    congr 1
    · have h2 : (y :: (ys ++ [x])).getLast (by simp)
          = ((y :: ys) ++ [x]).getLast (by simp) := rfl
      rw [h2, List.getLast_append_singleton]
    · rw [show (y :: (ys ++ [x])) = (y :: ys) ++ [x] from rfl, List.dropLast_concat]

theorem pop_order_eq_reverse {α : Type} (l : List α) : pop_order l = l.reverse := by
  induction l using List.reverseRecOn with
  | nil => simp [pop_order]
  | append_singleton xs x ih => rw [pop_order_concat, ih]; simp

/-- Witness for C2 at a concrete input. -/
theorem send_buffer_round_trip_witness :
    encode_send_buffer 2 5 [9, 8, 7] = some [7, 0, 2, 5, 9, 8, 7] ∧
    header_from_buffer 7 0 2 5 = ⟨2, 5, 3, 7⟩ ∧
    [7, 0, 2, 5, 9, 8, 7].drop 4 = [9, 8, 7] := by
  have h : encode_send_buffer 2 5 [9, 8, 7] = some [7, 0, 2, 5, 9, 8, 7] := by decide
  have := send_buffer_round_trip 2 5 [9, 8, 7] [7, 0, 2, 5, 9, 8, 7] h
  exact ⟨h, by simpa using this.1, this.2⟩

/-- Unfolding lemma for one step of the splitter scan at a known offset. -/
theorem separate_step (data : List Nat) (dl next : Nat) (slices : List (Nat × List Nat))
    (id req : Nat) (h1 : next < dl) (h2 : data.get? next = some id)
    (h3 : report_length id = some req) :
    separate_batch_from data dl next slices =
      if dl - next < req then (slices, some (.unprocessable (dl - next)))
      else separate_batch_from data dl (next + req)
        (slices ++ [(id, (data.drop next).take req)]) := by
  rw [separate_batch_from.eq_def, dif_pos h1]
  split
  · rename_i heq; rw [h2] at heq; cases heq
  · rename_i rid heq
    rw [h2] at heq
    injection heq with heq
    subst heq
    split
    · rename_i hl2; rw [h3] at hl2; cases hl2
    · rename_i req2 hl2
      rw [h3] at hl2
      injection hl2 with hl2
      subst hl2
      rfl

/-- The splitter scan stops cleanly once the offset reaches the payload
length. -/
theorem separate_end (data : List Nat) (dl next : Nat) (slices : List (Nat × List Nat))
    (h : ¬ next < dl) :
    separate_batch_from data dl next slices = (slices, none) := by
  rw [separate_batch_from.eq_def, dif_neg h]

theorem head?_drop_eq_get? (l : List Nat) (n : Nat) : (l.drop n).head? = l.get? n := by
  induction l generalizing n with
  | nil => simp
  | cons a as ih =>
    cases n with
    | zero => simp
    | succ m => simpa using ih m

/-- Up to any reached offset, the scan from 0 has emitted only full-length
slices, and the rest of the scan continues from that offset. -/
theorem scan_emitted (data : List Nat) (dl : Nat) (hdl : dl ≤ data.length)
    (next : Nat) (hreach : ScanReaches data dl next) :
    ∃ acc, (∀ q ∈ acc, ∃ len, report_length q.1 = some len ∧ q.2.length = len) ∧
      ∀ slices, separate_batch_from data dl 0 slices
        = separate_batch_from data dl next (slices ++ acc) := by
  induction hreach with
  | zero => exact ⟨[], by simp, fun slices => by simp⟩
  | step n id req hr hn hid hreq hfit ih =>
    obtain ⟨acc, hacc, heq⟩ := ih
    refine ⟨acc ++ [(id, (data.drop n).take req)], ?_, ?_⟩
    · intro q hq
      rcases List.mem_append.1 hq with hq | hq
      · exact hacc q hq
      · simp only [List.mem_singleton] at hq
        subst hq
        refine ⟨req, hreq, ?_⟩
        simp only [List.length_take, List.length_drop]
        omega
    · intro slices
      rw [heq slices, separate_step data dl n (slices ++ acc) id req hn hid hreq,
        if_neg (by omega), List.append_assoc]

/-- C4: if at some reached offset the report id's table length exceeds the
remaining bytes, the splitter raises the fatal
`RuntimeError("Unprocessable Batch bytes", ...)` (`BatchFramingError`), and
every slice it emitted before the error has exactly its table length — it
never silently truncates. -/
theorem batch_truncation_error (data : List Nat) (dl next id req : Nat)
    (slices0 : List (Nat × List Nat)) (hdl : dl ≤ data.length)
    (hreach : ScanReaches data dl next) (hn : next < dl)
    (hid : data.get? next = some id) (hreq : report_length id = some req)
    (htr : dl - next < req) :
    ∃ emitted, separate_batch_from data dl 0 slices0
        = (slices0 ++ emitted, some (.unprocessable (dl - next))) ∧
      ∀ q ∈ emitted, ∃ len, report_length q.1 = some len ∧ q.2.length = len := by
  obtain ⟨acc, hacc, heq⟩ := scan_emitted data dl hdl next hreach
  exact ⟨acc, by
    rw [heq slices0, separate_step data dl next (slices0 ++ acc) id req hn hid hreq,
      if_pos htr], hacc⟩

/-- Witness for C4: a 5-byte payload starting with a step-counter report id
(table length 12) aborts with the framing error and emits nothing. -/
theorem batch_truncation_error_witness :
    ∃ emitted, separate_batch_from [0x11, 0, 0, 0, 0] 5 0 []
        = ([] ++ emitted, some (.unprocessable 5)) ∧
      ∀ q ∈ emitted, ∃ len, report_length q.1 = some len ∧ q.2.length = len :=
  batch_truncation_error [0x11, 0, 0, 0, 0] 5 0 0x11 12 [] (by decide)
    ScanReaches.zero (by decide) rfl rfl (by decide)

/-- On a payload of exactly consumed reports, the scan from `next` emits one
full slice per chunk, concatenating back to the payload, with no error. -/
theorem exact_scan (payload : List Nat) (hE : ExactBatch payload) :
    ∀ (data : List Nat) (next : Nat) (slices : List (Nat × List Nat)),
      data.drop next = payload → next ≤ data.length →
      ∃ emitted, separate_batch_from data data.length next slices = (slices ++ emitted, none) ∧
        (emitted.map (fun q => q.2)).flatten = payload ∧
        ∀ q ∈ emitted, q.2.head? = some q.1 ∧
          ∃ len, report_length q.1 = some len ∧ q.2.length = len := by
  induction hE with
  | nil =>
    intro data next slices hdrop hle
    have hlen : data.length ≤ next := List.drop_eq_nil_iff_le.1 hdrop
    refine ⟨[], ?_, by simp, by simp⟩
    rw [separate_end data data.length next slices (by omega)]
    simp
  | cons report_id len chunk rest hlen hclen hhead hrest ih =>
    intro data next slices hdrop hle
    have hchunk_ne : chunk ≠ [] := by
      intro hceq; rw [hceq] at hhead; simp at hhead
    have hget : data.get? next = some report_id := by
      rw [← head?_drop_eq_get?, hdrop]
      rw [List.head?_append, hhead]
      rfl
    have hdlen : data.length - next = chunk.length + rest.length := by
      have := congrArg List.length hdrop
      simpa [List.length_drop, List.length_append] using this
    have hfit : ¬ data.length - next < len := by omega
    have hslice : (data.drop next).take len = chunk := by
      rw [hdrop, ← hclen, List.take_left]
    have hdrop2 : data.drop (next + len) = rest := by
      rw [← List.drop_drop, hdrop, ← hclen, List.drop_left]
    have hchunk_pos : 0 < chunk.length := List.length_pos.2 hchunk_ne
    have hnlt : next < data.length := by omega
    have hle2 : next + len ≤ data.length := by omega
    obtain ⟨emitted, hemit, hflat, hall⟩ :=
      ih data (next + len) (slices ++ [(report_id, chunk)]) hdrop2 hle2
    refine ⟨(report_id, chunk) :: emitted, ?_, ?_, ?_⟩
    · rw [separate_step data data.length next slices report_id len
        hnlt hget hlen, if_neg hfit, hslice, hemit]
      simp
    · simpa using congrArg (fun l => chunk ++ l) hflat
    · intro q hq
      rcases List.mem_cons.1 hq with hq | hq
      · subst hq
        exact ⟨hhead, len, hlen, hclen⟩
      · exact hall q hq

/-- Unfolding lemma for one pop of `_handle_packet`'s dispatch loop: the
popped slice is the last element of the list. -/
theorem drain_concat (now : Int) (st : DeviceState) (l : List (Nat × List Nat))
    (x : Nat × List Nat) (acc : List (Nat × List Nat)) :
    drain_slices now st (l ++ [x]) acc =
      match process_report now st x.1 x.2 with
      | .error e => .error (.proc e)
      | .ok (st2, _) => drain_slices now st2 l (acc ++ [x]) := by
  cases l with
  | nil => rw [List.nil_append, drain_slices]; rfl
  | cons y ys =>
    rw [List.cons_append, drain_slices]
    have h2 : (y :: (ys ++ [x])).getLast (by simp)
        = ((y :: ys) ++ [x]).getLast (by simp) := rfl
    rw [h2, List.getLast_append_singleton]
    rw [show (y :: (ys ++ [x])) = (y :: ys) ++ [x] from rfl, List.dropLast_concat]

/-- When the dispatch loop completes, the order in which it dispatched the
slices is the reverse of the slice list. -/
theorem drain_dispatch_order (now : Int) (slices : List (Nat × List Nat)) :
    ∀ (st : DeviceState) (acc : List (Nat × List Nat)) (st2 : DeviceState)
      (t : List (Nat × List Nat)),
      drain_slices now st slices acc = .ok (st2, t) → t = acc ++ slices.reverse := by
  induction slices using List.reverseRecOn with
  | nil =>
    intro st acc st2 t h
    rw [drain_slices] at h
    injection h with h
    injection h with h1 h2
    simp [h2.symm]
  | append_singleton xs x ih =>
    intro st acc st2 t h
    rw [drain_concat] at h
    cases hp : process_report now st x.1 x.2 with
    | error e => rw [hp] at h; cases h
    | ok r =>
      rw [hp] at h
      obtain ⟨st3, tr⟩ := r
      have := ih st3 (acc ++ [x]) st2 t h
      rw [this]
      simp

/-- C3: on a packet whose payload is exactly consumed by its reports'
table lengths, the splitter succeeds, yielding one slice per report, each
beginning with its report id, concatenating back to the payload; and the
`_handle_packet` pop loop dispatches the slice list in last-in-first-out
order, i.e. reversed relative to wire order. -/
theorem batch_exact_split_lifo (p : Packet)
    (hdl : p.header.data_length = p.data.length) (hE : ExactBatch p.data) :
    ∃ emitted, separate_batch p.header p.data [] = (emitted, none) ∧
      (emitted.map (fun q => q.2)).flatten = p.data ∧
      (∀ q ∈ emitted, q.2.head? = some q.1) ∧
      pop_order emitted = emitted.reverse ∧
      (∀ (now : Int) (st st2 : DeviceState) (dispatched : List (Nat × List Nat)),
        drain_slices now st emitted [] = .ok (st2, dispatched) →
        dispatched = emitted.reverse) := by
  obtain ⟨emitted, hemit, hflat, hall⟩ :=
    exact_scan p.data hE p.data 0 [] (by simp) (by simp)
  refine ⟨emitted, ?_, hflat, fun q hq => (hall q hq).1, pop_order_eq_reverse emitted, ?_⟩
  · rw [separate_batch, hdl, hemit]
    simp
  · intro now st st2 dispatched hdrain
    have := drain_dispatch_order now emitted st [] st2 dispatched hdrain
    simpa using this

/-- Witness for C3: two back-to-back step-counter reports (id 0x11 = 17,
table length 12 each). -/
theorem batch_exact_split_lifo_witness :
    ∃ emitted,
      separate_batch ⟨3, 7, 24, 28⟩
        [17, 1, 2, 3, 4, 5, 6, 7, 8, 9, 10, 11,
         17, 21, 22, 23, 24, 25, 26, 27, 28, 29, 30, 31] [] = (emitted, none) ∧
      (emitted.map (fun q => q.2)).flatten =
        [17, 1, 2, 3, 4, 5, 6, 7, 8, 9, 10, 11,
         17, 21, 22, 23, 24, 25, 26, 27, 28, 29, 30, 31] ∧
      (∀ q ∈ emitted, q.2.head? = some q.1) ∧
      pop_order emitted = emitted.reverse ∧
      (∀ (now : Int) (st st2 : DeviceState) (dispatched : List (Nat × List Nat)),
        drain_slices now st emitted [] = .ok (st2, dispatched) →
        dispatched = emitted.reverse) := by
  have h2 : ExactBatch [17, 21, 22, 23, 24, 25, 26, 27, 28, 29, 30, 31] := by
    have := ExactBatch.cons 17 12 [17, 21, 22, 23, 24, 25, 26, 27, 28, 29, 30, 31] []
      rfl rfl rfl ExactBatch.nil
    simpa using this
  have h1 : ExactBatch ([17, 1, 2, 3, 4, 5, 6, 7, 8, 9, 10, 11] ++
      [17, 21, 22, 23, 24, 25, 26, 27, 28, 29, 30, 31]) :=
    ExactBatch.cons 17 12 [17, 1, 2, 3, 4, 5, 6, 7, 8, 9, 10, 11]
      [17, 21, 22, 23, 24, 25, 26, 27, 28, 29, 30, 31] rfl rfl rfl h2
  exact batch_exact_split_lifo
    ⟨⟨3, 7, 24, 28⟩, [17, 1, 2, 3, 4, 5, 6, 7, 8, 9, 10, 11,
      17, 21, 22, 23, 24, 25, 26, 27, 28, 29, 30, 31]⟩ rfl (by simpa using h1)

/-- Setting a list element back to the value it already holds is the
identity. -/
theorem list_set_self (l : List Nat) (i x : Nat) (h : l.get? i = some x) :
    l.set i x = l := by
  induction l generalizing i with
  | nil => simp at h
  | cons a as ih =>
    cases i with
    | zero =>
      have ha : a = x := by simpa using h
      simp [ha]
    | succ j =>
      have h2 : as.get? j = some x := h
      simp [ih j h2]

/-- After `k` sends on a channel whose counter starts at `s`, the counter
holds `(s + k) % 256` (and every send succeeds). -/
theorem send_loop_counter (channel : Nat) (data : List Nat) (hch : channel < 256)
    (hd : data.length + 4 ≤ 512) :
    ∀ (k : Nat) (seqs : List Nat) (s : Nat), seqs.get? channel = some s → s < 256 →
      send_loop channel data k seqs = some (seqs.set channel ((s + k) % 256)) := by
  intro k
  induction k with
  | zero =>
    intro seqs s hs hs2
    rw [send_loop, Nat.add_zero, Nat.mod_eq_of_lt hs2, list_set_self seqs channel s hs]
  | succ n ih =>
    intro seqs s hs hs2
    have henc : encode_send_buffer channel s data
        = some ([(data.length + 4) % 256, ((data.length + 4) / 256) % 256, channel, s]
            ++ data) := by
      rw [encode_send_buffer, if_pos ⟨hch, hs2, hd⟩]
    have hsend : send_packet seqs channel data
        = some ([(data.length + 4) % 256, ((data.length + 4) / 256) % 256, channel, s]
            ++ data, seqs.set channel ((s + 1) % 256)) := by
      unfold send_packet
      simp only [hs, henc]
    rw [send_loop, hsend]
    show send_loop channel data n (seqs.set channel ((s + 1) % 256))
      = some (seqs.set channel ((s + (n + 1)) % 256))
    have hlen : channel < seqs.length := (List.get?_eq_some.1 hs).1
    have hget2 : (seqs.set channel ((s + 1) % 256)).get? channel = some ((s + 1) % 256) :=
      List.get?_set_eq_of_lt ((s + 1) % 256) hlen
    have hrec := ih (seqs.set channel ((s + 1) % 256)) ((s + 1) % 256) hget2
      (Nat.mod_lt _ (by norm_num))
    rw [hrec, List.set_set]
    congr 2
    rw [Nat.mod_add_mod]
    omega

/-- C5: one send on channel `c` writes the channel's pre-increment counter
value into the header sequence byte (byte 3 of the wire buffer) and then
bumps the counter modulo 256; consequently 256 consecutive sends on the
same channel return the counter list to exactly its original value. -/
theorem send_sequence_wraps (seqs : List Nat) (channel s : Nat) (data : List Nat)
    (hs : seqs.get? channel = some s) (hs2 : s < 256) (hch : channel < 256)
    (hd : data.length + 4 ≤ 512) :
    (∃ buf, send_packet seqs channel data = some (buf, seqs.set channel ((s + 1) % 256)) ∧
      buf.get? 3 = some s) ∧
    send_loop channel data 256 seqs = some seqs := by
  constructor
  · refine ⟨[(data.length + 4) % 256, ((data.length + 4) / 256) % 256, channel, s] ++ data,
      ?_, rfl⟩
    have henc : encode_send_buffer channel s data
        = some ([(data.length + 4) % 256, ((data.length + 4) / 256) % 256, channel, s]
            ++ data) := by
      rw [encode_send_buffer, if_pos ⟨hch, hs2, hd⟩]
    unfold send_packet
    simp only [hs, henc]
  · rw [send_loop_counter channel data hch hd 256 seqs s hs hs2]
    have : (s + 256) % 256 = s := by omega
    rw [this, list_set_self seqs channel s hs]

/-- Witness for C5: channel 2 starting from a fresh counter list. -/
theorem send_sequence_wraps_witness :
    (∃ buf, send_packet [0, 0, 0, 0, 0, 0] 2 [1] = some (buf, [0, 0, 1, 0, 0, 0]) ∧
      buf.get? 3 = some 0) ∧
    send_loop 2 [1] 256 [0, 0, 0, 0, 0, 0] = some [0, 0, 0, 0, 0, 0] := by
  have := send_sequence_wraps [0, 0, 0, 0, 0, 0] 2 0 [1] rfl (by decide) (by decide) (by decide)
  simpa using this

theorem alist_get_set_self (m : List (Nat × Reading)) (k : Nat) (v : Reading) :
    alist_get (alist_set m k v) k = some v := by
  induction m with
  | nil => simp [alist_set, alist_get]
  | cons p rest ih =>
    obtain ⟨pk, pv⟩ := p
    by_cases hk : pk = k
    · simp [alist_set, alist_get, hk]
    · simp [alist_set, alist_get, hk, ih]

/-- Reading the stored shake value: the accessor returns the stored value
and clears the slot to `False` when the value read truthy. -/
theorem shake_read_eq (st : DeviceState) (v : Reading)
    (hv : alist_get st.readings 0x19 = some v) :
    shake_read st = if truthy_reading v then
      .ok (v, { st with readings := alist_set st.readings 0x19 (.shakeFlag false) })
    else .ok (v, st) := by
  unfold shake_read
  simp only [hv]

/-- The shake branch of `_process_report`: the store is written only when
the stored value reads falsy. -/
theorem process_report_shake (now : Int) (st : DeviceState) (bytes : List Nat) (d : Bool)
    (hp : parse_shake_report bytes = .ok d) :
    process_report now st 0x19 bytes = .ok
      (if !truthy_opt (alist_get st.readings 0x19) then
        { st with readings := alist_set st.readings 0x19 (.shakeFlag d) } else st, []) := by
  unfold process_report
  rw [if_neg (by decide), if_neg (by decide), if_pos rfl]
  rw [show (do
      let shake_detected ← parse_shake_report bytes
      if !truthy_opt (alist_get st.readings 0x19) then
        pure ({ st with readings := alist_set st.readings 0x19 (.shakeFlag shake_detected) },
          ([] : List BusOp))
      else
        pure (st, ([] : List BusOp)) : Except ProcError (DeviceState × List BusOp))
    = if !truthy_opt (alist_get st.readings 0x19) then
        .ok ({ st with readings := alist_set st.readings 0x19 (.shakeFlag d) }, [])
      else .ok (st, []) from by rw [hp]; rfl]
  split <;> rfl

/-- C6: processing a shake report ORs the decoded flag into the store (a
falsy stored value is overwritten with the decode, a truthy one is left
alone, so a false decode never clears a stored true), and after processing
a report whose masked bitfield is nonzero, the shake accessor reads truthy
once and falsy on a second read with no report in between (the first read
clears the flag).  Truthy/falsy is Python truthiness of the stored value. -/
theorem shake_or_semantics_and_read_clears (now : Int) (st : DeviceState)
    (bytes : List Nat) (hparse : parse_shake_report bytes = .ok true) :
    (∀ (st' : DeviceState) (bytes' : List Nat) (d : Bool),
      parse_shake_report bytes' = .ok d →
      ∃ stN, process_report now st' 0x19 bytes' = .ok (stN, []) ∧
        truthy_opt (alist_get stN.readings 0x19)
          = (truthy_opt (alist_get st'.readings 0x19) || d)) ∧
    (∃ st1, process_report now st 0x19 bytes = .ok (st1, []) ∧
      ∃ r1 st2, shake_read st1 = .ok (r1, st2) ∧ truthy_reading r1 = true ∧
        ∃ r2 st3, shake_read st2 = .ok (r2, st3) ∧ truthy_reading r2 = false) := by
  constructor
  · intro st' bytes' d hp
    rw [process_report_shake now st' bytes' d hp]
    cases htr : truthy_opt (alist_get st'.readings 0x19) with
    | false =>
      refine ⟨_, rfl, ?_⟩
      simp [alist_get_set_self, truthy_opt, truthy_reading]
    | true =>
      refine ⟨_, rfl, ?_⟩
      simpa using htr
  · rw [process_report_shake now st bytes true hparse]
    cases htr : truthy_opt (alist_get st.readings 0x19) with
    | false =>
      refine ⟨{ st with readings := alist_set st.readings 0x19 (.shakeFlag true) }, rfl, ?_⟩
      have hv1 : alist_get (alist_set st.readings 0x19 (.shakeFlag true)) 0x19
          = some (.shakeFlag true) := alist_get_set_self _ _ _
      refine ⟨.shakeFlag true, _, by rw [shake_read_eq _ _ hv1]; rfl, rfl, ?_⟩
      have hv2 : alist_get (alist_set (alist_set st.readings 0x19 (.shakeFlag true))
          0x19 (.shakeFlag false)) 0x19 = some (.shakeFlag false) := alist_get_set_self _ _ _
      exact ⟨.shakeFlag false, _, by rw [shake_read_eq _ _ hv2]; rfl, rfl⟩
    | true =>
      refine ⟨st, rfl, ?_⟩
      obtain ⟨v, hv⟩ : ∃ v, alist_get st.readings 0x19 = some v := by
        cases hg : alist_get st.readings 0x19 with
        | none => rw [hg] at htr; simp [truthy_opt] at htr
        | some v => exact ⟨v, rfl⟩
      have hvt : truthy_reading v = true := by
        rw [hv] at htr; simpa [truthy_opt] using htr
      refine ⟨v, _, by rw [shake_read_eq _ _ hv, if_pos hvt], hvt, ?_⟩
      have hv2 : alist_get (alist_set st.readings 0x19 (.shakeFlag false)) 0x19
          = some (.shakeFlag false) := alist_get_set_self _ _ _
      exact ⟨.shakeFlag false, _, by rw [shake_read_eq _ _ hv2]; rfl, rfl⟩

/-- Witness for C6: a fresh store and a shake report whose bitfield is 1. -/
theorem shake_or_semantics_and_read_clears_witness :
    (∀ (st' : DeviceState) (bytes' : List Nat) (d : Bool),
      parse_shake_report bytes' = .ok d →
      ∃ stN, process_report 0 st' 0x19 bytes' = .ok (stN, []) ∧
        truthy_opt (alist_get stN.readings 0x19)
          = (truthy_opt (alist_get st'.readings 0x19) || d)) ∧
    (∃ st1, process_report 0 init_state 0x19 [0x19, 0, 0, 0, 1, 0] = .ok (st1, []) ∧
      ∃ r1 st2, shake_read st1 = .ok (r1, st2) ∧ truthy_reading r1 = true ∧
        ∃ r2 st3, shake_read st2 = .ok (r2, st3) ∧ truthy_reading r2 = false) :=
  shake_or_semantics_and_read_clears 0 init_state [0x19, 0, 0, 0, 1, 0] (by rfl)

/-- C8: when every attempt's product-id handshake fails (the device never
responds), the init loop runs the hard-reset/soft-reset/handshake sequence
exactly 3 times and then fails with `RuntimeError("Could not read ID")`;
and it returns successfully right after the first attempt whose handshake
succeeds. -/
theorem init_three_attempts (check : Nat → CheckOutcome) :
    ((∀ i, check i = .error ()) → run_init_attempts check = (3, false)) ∧
    (∀ k, k < 3 → (∀ j, j < k → check j ≠ .ok true) → check k = .ok true →
      run_init_attempts check = (k + 1, true)) := by
  constructor
  · intro h
    simp [run_init_attempts, run_init, h]
  · intro k hk hprev hsucc
    interval_cases k
    · simp [run_init_attempts, run_init, hsucc]
    · rcases hc0 : check 0 with u | b
      · simp [run_init_attempts, run_init, hc0, hsucc]
      · cases b
        · simp [run_init_attempts, run_init, hc0, hsucc]
        · exact absurd hc0 (hprev 0 (by omega))
    · have h0 : check 0 ≠ .ok true := hprev 0 (by omega)
      have h1 : check 1 ≠ .ok true := hprev 1 (by omega)
      rcases hc0 : check 0 with u | b
      · rcases hc1 : check 1 with u1 | b1
        · simp [run_init_attempts, run_init, hc0, hc1, hsucc]
        · cases b1
          · simp [run_init_attempts, run_init, hc0, hc1, hsucc]
          · exact absurd hc1 h1
      · cases b
        · rcases hc1 : check 1 with u1 | b1
          · simp [run_init_attempts, run_init, hc0, hc1, hsucc]
          · cases b1
            · simp [run_init_attempts, run_init, hc0, hc1, hsucc]
            · exact absurd hc1 h1
        · exact absurd hc0 h0

/-- Witness for C8: a device that never answers exhausts 3 attempts; a
device answering on the second attempt succeeds after 2 attempts. -/
theorem init_three_attempts_witness :
    run_init_attempts (fun _ => .error ()) = (3, false) ∧
    run_init_attempts (fun i => if i = 1 then .ok true else .error ()) = (2, true) := by
  constructor
  · exact (init_three_attempts (fun _ => .error ())).1 (fun _ => rfl)
  · exact (init_three_attempts (fun i => if i = 1 then .ok true else .error ())).2 1
      (by omega) (by intro j hj; interval_cases j; simp) rfl

/-- C10: whenever `_read_packet` raises the transient
`PacketError("No packet available")` (header byte count zero), it has
already overwritten the stored sequence number for the header's channel
with the header's sequence field — the error path mutates sequence state. -/
theorem read_packet_error_updates_seq (st : DeviceState) (frame : List Nat)
    (st2 : DeviceState) (h : read_packet st frame = (.packetError, st2)) :
    (frame_header frame).packet_byte_count = 0 ∧
    st2 = { st with sequence_number :=
      (st.sequence_number.set (frame_header frame).channel_number
        (frame_header frame).sequence_number) } ∧
    st2.sequence_number.get? (frame_header frame).channel_number
      = some (frame_header frame).sequence_number := by
  simp only [read_packet] at h
  split at h
  · rename_i hch
    split at h
    · rename_i hbc
      injection h with h1 h2
      subst h2
      refine ⟨hbc, rfl, ?_⟩
      exact List.get?_set_eq_of_lt _ (by simpa using hch)
    · exact absurd (congrArg Prod.fst h) (by simp)
  · exact absurd (congrArg Prod.fst h) (by simp)

/-- Witness for C10: a zero-byte-count header for channel 3, sequence 7. -/
theorem read_packet_error_updates_seq_witness :
    (frame_header [0, 0, 3, 7]).packet_byte_count = 0 ∧
    ({ init_state with sequence_number := [0, 0, 0, 7, 0, 0] }
      = { init_state with sequence_number :=
          (init_state.sequence_number.set (frame_header [0, 0, 3, 7]).channel_number
            (frame_header [0, 0, 3, 7]).sequence_number) }) ∧
    ({ init_state with sequence_number := [0, 0, 0, 7, 0, 0] }
        : DeviceState).sequence_number.get? (frame_header [0, 0, 3, 7]).channel_number
      = some (frame_header [0, 0, 3, 7]).sequence_number := by
  have h := read_packet_error_updates_seq init_state [0, 0, 3, 7]
    { init_state with sequence_number := [0, 0, 0, 7, 0, 0] } (by rfl)
  exact ⟨h.1, by decide, h.2.2⟩

/-- `_handle_command_response` touches only the two calibration timestamps
among the state fields (besides possibly raising). -/
theorem command_response_frame (now : Int) (st : DeviceState) (bytes : List Nat)
    (st2 : DeviceState) (h : handle_command_response now st bytes = .ok st2) :
    st2.sequence_number = st.sequence_number ∧
    st2.two_ended_sequence_numbers = st.two_ended_sequence_numbers ∧
    st2.packet_slices = st.packet_slices ∧
    st2.calibration_complete = st.calibration_complete ∧
    st2.id_read = st.id_read ∧
    st2.readings = st.readings ∧
    st2.magnetometer_accuracy = st.magnetometer_accuracy := by
  unfold handle_command_response at h
  rcases hp : parse_command_response bytes with e | parsed
  · rw [hp] at h
    simp [Bind.bind, Except.bind] at h
  · rw [hp] at h
    simp only [Bind.bind, Except.bind] at h
    split at h
    · split at h
      · split at h
        · injection h with h
          subst h
          split <;> simp
        · cases h
      · injection h with h
        subst h
        split <;> simp
    · cases h

/-- `_handle_control_report` touches only the readings store and (via the
command-response branch) the calibration timestamps. -/
theorem control_report_frame (now : Int) (st : DeviceState) (report_id : Nat)
    (bytes : List Nat) (st2 : DeviceState)
    (h : handle_control_report now st report_id bytes = .ok st2) :
    st2.sequence_number = st.sequence_number ∧
    st2.two_ended_sequence_numbers = st.two_ended_sequence_numbers ∧
    st2.packet_slices = st.packet_slices ∧
    st2.calibration_complete = st.calibration_complete ∧
    st2.id_read = st.id_read ∧
    st2.magnetometer_accuracy = st.magnetometer_accuracy := by
  unfold handle_control_report at h
  simp only [Bind.bind, Except.bind] at h
  split at h
  · -- report_id = 0xF8: the product-id branch leaves the state unchanged
    rename_i h8
    rcases hq : parse_sensor_id bytes with e | v
    · rw [hq] at h
      simp [Except.map] at h
    · rw [hq] at h
      simp only [Except.map] at h
      rw [if_neg (by omega : ¬ report_id = 0xFC)] at h
      simp only [pure, Except.pure] at h
      rw [if_neg (by omega : ¬ report_id = 0xF1)] at h
      injection h with h
      subst h
      exact ⟨rfl, rfl, rfl, rfl, rfl, rfl⟩
  · rename_i h8
    simp only [pure, Except.pure] at h
    split at h
    · -- report_id = 0xFC: the feature-response branch touches only readings
      rename_i hC
      rcases hq : parse_get_feature_response bytes with e | fr
      · rw [hq] at h
        simp at h
      · rw [hq] at h
        simp only [pure, Except.pure] at h
        rw [if_neg (by omega : ¬ report_id = 0xF1)] at h
        injection h with h
        subst h
        exact ⟨rfl, rfl, rfl, rfl, rfl, rfl⟩
    · rename_i hC
      split at h
      · -- report_id = 0xF1: the command-response branch
        have := command_response_frame now st bytes st2 h
        exact ⟨this.1, this.2.1, this.2.2.1, this.2.2.2.1, this.2.2.2.2.1,
          this.2.2.2.2.2.2⟩
      · injection h with h
        subst h
        exact ⟨rfl, rfl, rfl, rfl, rfl, rfl⟩

/-- C9 (amended): dispatching a report slice performs no bus I/O (the
embedded trace is empty because the source dispatch functions contain no
`i2c` calls), and its state effects are confined to the readings store, the
magnetometer-accuracy field, and the two calibration timestamps; the
sequence counters, command sequence numbers, packet-slice list,
calibration-complete flag and id-read flag are unchanged. -/
theorem dispatch_frame_effects (now : Int) (st : DeviceState) (report_id : Nat)
    (report_bytes : List Nat) (res : DeviceState × List BusOp)
    (h : process_report now st report_id report_bytes = .ok res) :
    res.2 = [] ∧
    res.1.sequence_number = st.sequence_number ∧
    res.1.two_ended_sequence_numbers = st.two_ended_sequence_numbers ∧
    res.1.packet_slices = st.packet_slices ∧
    res.1.calibration_complete = st.calibration_complete ∧
    res.1.id_read = st.id_read := by
  unfold process_report at h
  split at h
  · rcases hc : handle_control_report now st report_id report_bytes with e | s
    · rw [hc] at h; simp [Except.map] at h
    · rw [hc] at h
      simp only [Except.map] at h
      injection h with h
      subst h
      have := control_report_frame now st report_id report_bytes s hc
      exact ⟨rfl, this.1, this.2.1, this.2.2.1, this.2.2.2.1, this.2.2.2.2.1⟩
  · split at h
    · rcases hp : parse_step_counter_report report_bytes with e | n
      · rw [hp] at h; simp [Bind.bind, Except.bind] at h
      · rw [hp] at h
        simp only [Bind.bind, Except.bind, pure, Except.pure] at h
        injection h with h
        subst h
        simp
    · split at h
      · rcases hp : parse_shake_report report_bytes with e | d
        · rw [hp] at h; simp [Bind.bind, Except.bind] at h
        · rw [hp] at h
          simp only [Bind.bind, Except.bind, pure, Except.pure] at h
          split at h <;> (injection h with h; subst h; simp)
      · split at h
        · rcases hp : parse_stability_classifier_report report_bytes with e | sc
          · rw [hp] at h; simp [Bind.bind, Except.bind] at h
          · rw [hp] at h
            simp only [Bind.bind, Except.bind, pure, Except.pure] at h
            injection h with h
            subst h
            simp
        · split at h
          · rcases hp : parse_activity_classifier_report report_bytes with e | ac
            · rw [hp] at h; simp [Bind.bind, Except.bind] at h
            · rw [hp] at h
              simp only [Bind.bind, Except.bind, pure, Except.pure] at h
              injection h with h
              subst h
              simp
          · rcases hp : parse_sensor_report_data report_bytes with e | parsed
            · rw [hp] at h; simp [Bind.bind, Except.bind] at h
            · rw [hp] at h
              simp only [Bind.bind, Except.bind, pure, Except.pure] at h
              injection h with h
              subst h
              refine ⟨rfl, ?_, ?_, ?_, ?_, ?_⟩ <;> (split <;> simp)

/-- Witness for the amended C9 at a step-counter slice. -/
theorem dispatch_frame_effects_witness :
    (process_report 0 init_state 0x11 [17, 0, 0, 0, 0, 0, 0, 0, 7, 0, 0, 0]).map
      (fun r => (r.2, r.1.sequence_number, r.1.packet_slices))
      = .ok ([], init_state.sequence_number, init_state.packet_slices) := by
  have h : process_report 0 init_state 0x11 [17, 0, 0, 0, 0, 0, 0, 0, 7, 0, 0, 0]
      = .ok ({ init_state with readings := [(0x11, .stepCount 7)] }, []) := rfl
  have hf := dispatch_frame_effects 0 init_state 0x11 [17, 0, 0, 0, 0, 0, 0, 0, 7, 0, 0, 0]
    ({ init_state with readings := [(0x11, .stepCount 7)] }, []) h
  rw [h]
  show Except.ok (([] : List BusOp),
    ({ init_state with readings := [(0x11, .stepCount 7)] } : DeviceState).sequence_number,
    ({ init_state with readings := [(0x11, .stepCount 7)] } : DeviceState).packet_slices) = _
  rw [hf.2.1, hf.2.2.2.1]

/-- Counterexample to C9 as stated: dispatching a magnetometer report slice
(id 0x03, status byte 3) changes `_magnetometer_accuracy` from 0 to 3 —
writing into the readings store is NOT the dispatcher's only state effect. -/
theorem dispatch_changes_more_than_readings :
    (process_report 0 init_state 0x03 [3, 0, 3, 0, 0, 0, 0, 0, 0, 0]).map
      (fun r => r.1.magnetometer_accuracy) = .ok 3 ∧
    init_state.magnetometer_accuracy = 0 := ⟨rfl, rfl⟩

/-- Count bound for the packet pump with a truthy `max_packets = m`: the
early-return check `processed_count > max_packets` lets the count reach at
most `m + 1` (starting from `c`, at most `max c (m + 1)`). -/
theorem process_count_bound (now : Int) (m : Nat) (hm : m ≠ 0) :
    ∀ (env : List (List Nat)) (st : DeviceState) (c : Nat) (r : DeviceState × Nat),
      process_available_packets now (some m) st env c = .ok r → r.2 ≤ max c (m + 1) := by
  intro env
  induction env with
  | nil =>
    intro st c r h
    rw [process_available_packets] at h
    injection h with h
    subst h
    exact le_max_left _ _
  | cons f rest ih =>
    intro st c r h
    rw [process_available_packets] at h
    split at h
    · split at h
      · injection h with h
        subst h
        exact le_max_left _ _
      · rename_i hnr
        have hnr2 : ¬ (if m = 0 then false else decide (c > m)) = true := hnr
        rw [if_neg hm] at hnr2
        have hcm : c ≤ m := by simpa using hnr2
        split at h
        · cases h
        · exact ih _ _ _ h
        · split at h
          · cases h
          · have := ih _ _ _ h
            have hmax : max (c + 1) (m + 1) = m + 1 := by omega
            rw [hmax] at this
            omega
    · injection h with h
      subst h
      exact le_max_left _ _

/-- C7 (amended): one call of `_process_available_packets(max_packets=10)`
processes at most ELEVEN packets before returning, for every sequence of
available incoming frames — the guard `processed_count > max_packets` runs
after the increment, so the bound is `max_packets + 1`, not `max_packets`. -/
theorem process_at_most_eleven (now : Int) (st : DeviceState) (env : List (List Nat))
    (r : DeviceState × Nat)
    (h : process_available_packets now (some 10) st env 0 = .ok r) : r.2 ≤ 11 := by
  have := process_count_bound now 10 (by omega) env st 0 r h
  simpa using this

/-- Witness for the amended C7: an empty frame queue processes 0 ≤ 11. -/
theorem process_at_most_eleven_witness :
    ((init_state, 0) : DeviceState × Nat).2 ≤ 11 :=
  process_at_most_eleven 0 init_state [] (init_state, 0) rfl

theorem good_frame_separate :
    separate_batch_from [0xFB, 0, 0, 0, 0] 5 0 []
      = ([(0xFB, [0xFB, 0, 0, 0, 0])], none) := by
  rw [separate_step [0xFB, 0, 0, 0, 0] 5 0 [] 0xFB 5 (by decide) rfl rfl,
    if_neg (by decide), separate_end _ _ _ _ (by decide)]
  simp

theorem good_frame_handle (now : Int) :
    handle_packet now pumped_state ⟨⟨3, 5, 5, 9⟩, [0xFB, 0, 0, 0, 0]⟩
      = .ok pumped_state := by
  have hpr : process_report now pumped_state 0xFB [0xFB, 0, 0, 0, 0]
      = .ok (pumped_state, []) := rfl
  have hdr : drain_slices now pumped_state [(0xFB, [0xFB, 0, 0, 0, 0])] []
      = .ok (pumped_state, [(0xFB, [0xFB, 0, 0, 0, 0])]) := by
    have h0 := drain_concat now pumped_state [] (0xFB, [0xFB, 0, 0, 0, 0]) []
    rw [List.nil_append] at h0
    rw [h0, hpr]
    show drain_slices now pumped_state [] ([] ++ [(0xFB, [0xFB, 0, 0, 0, 0])])
      = .ok (pumped_state, [(0xFB, [0xFB, 0, 0, 0, 0])])
    rw [drain_slices]
    simp
  unfold handle_packet separate_batch
  show (match separate_batch_from [0xFB, 0, 0, 0, 0] 5 0 [] with
    | (_, some e) => (Except.error (HandleError.batch e) : Except HandleError DeviceState)
    | (slices, none) =>
      match drain_slices now pumped_state slices [] with
      | Except.error e => Except.error e
      | Except.ok (st2, _) => Except.ok { st2 with packet_slices := [] })
    = Except.ok pumped_state
  rw [good_frame_separate]
  show (match drain_slices now pumped_state [(0xFB, [0xFB, 0, 0, 0, 0])] [] with
    | Except.error e => (Except.error e : Except HandleError DeviceState)
    | Except.ok (st2, _) => Except.ok { st2 with packet_slices := [] })
    = Except.ok pumped_state
  rw [hdr]
  exact rfl

/-- Pumping `n` identical `good_frame`s from `pumped_state` with
`max_packets = 10` processes `min (c + n) 11` packets in total. -/
theorem uniform_pump (now : Int) :
    ∀ (n c : Nat), c ≤ 11 →
      process_available_packets now (some 10) pumped_state
        (List.replicate n good_frame) c = .ok (pumped_state, min (c + n) 11) := by
  intro n
  induction n with
  | zero =>
    intro c hc
    have hmin : min (c + 0) 11 = c := by omega
    rw [List.replicate, hmin, process_available_packets]
  | succ k ih =>
    intro c hc
    rw [List.replicate_succ, process_available_packets]
    have hready : data_ready (good_frame :: List.replicate k good_frame) = true := by
      unfold data_ready
      rw [List.headD_cons]
      decide
    rw [hready, if_pos rfl]
    by_cases hc10 : 10 < c
    · have hreach : max_packets_reached (some 10) c = true := by
        show (if (10 : Nat) = 0 then false else decide (c > 10)) = true
        rw [if_neg (by omega)]
        simpa using hc10
      rw [hreach, if_pos rfl]
      have : min (c + (k + 1)) 11 = c := by omega
      rw [this]
    · have hreach : max_packets_reached (some 10) c = false := by
        show (if (10 : Nat) = 0 then false else decide (c > 10)) = false
        rw [if_neg (by omega)]
        simpa using hc10
      rw [hreach, if_neg Bool.false_ne_true]
      rw [show read_packet pumped_state good_frame
        = (.packet ⟨⟨3, 5, 5, 9⟩, [0xFB, 0, 0, 0, 0]⟩, pumped_state) from by decide]
      show (match handle_packet now pumped_state ⟨⟨3, 5, 5, 9⟩, [0xFB, 0, 0, 0, 0]⟩ with
        | Except.error e => (Except.error e : Except HandleError (DeviceState × Nat))
        | Except.ok st2 => process_available_packets now (some 10) st2
            (List.replicate k good_frame) (c + 1))
        = Except.ok (pumped_state, min (c + (k + 1)) 11)
      rw [good_frame_handle now]
      show process_available_packets now (some 10) pumped_state
        (List.replicate k good_frame) (c + 1) = Except.ok (pumped_state, min (c + (k + 1)) 11)
      rw [ih (c + 1) (by omega)]
      have : min (c + 1 + k) 11 = min (c + (k + 1)) 11 := by omega
      rw [this]

/-- Counterexample to C7 as stated: with `max_packets = 10` and twelve
packets available, the pump processes 11 packets (more than 10) before
returning. -/
theorem process_available_exceeds_max_packets :
    process_available_packets 0 (some 10) pumped_state (List.replicate 12 good_frame) 0
      = .ok (pumped_state, 11) ∧ 10 < 11 := by
  have h := uniform_pump 0 12 0 (by omega)
  exact ⟨by simpa using h, by omega⟩

end BNO085
